import Mathlib

/-!
Shallow embedding of the delivery-delay monitor of `my-freight-app`.

The embedded code is `monitorDeliveryWorkflow` together with its three
signal handlers (`snooze`, `routeRestarted`, `checkNow`) from
`src/worker/src/cli/start-workflow.ts`, and the activity
`generateDelayMessage` from `src/worker/src/activities/index.ts`.

Modelling conventions:
- JavaScript numbers that hold minute/millisecond quantities are `Int`.
- Each activity call may fail; a cycle input records, for every call the
  cycle might make, whether that call succeeds (`CycleOutcome`).  The
  workflow body has no try/catch, so a failing call aborts the cycle with
  `crashed := true` carrying the state as mutated so far, and the loop
  stops (the exception propagates out of the workflow function).
- Sleeps and dispatches are recorded as an event trace, in program order:
  `snoozeSleep` for the snooze sleep at the top of the loop body,
  `fetch` for a successful `fetchTrafficConditions`, `escalation` and
  `allClear` for a successful `sendNotificationEmail` of either kind
  (carrying the sequence number and the idempotency key used), and
  `baseSleep` for the unconditional 30-minute sleep at the end of the
  loop body.
- Signals are applied between cycles: every handler only writes a state
  field that the loop body reads at its next iteration, and no handler
  alters a sleep already in progress, so delivering a signal during a
  suspension of cycle n is observationally the application of its handler
  before cycle n+1.
-/

/-- Immutable workflow arguments (`MonitorArgs` in the source). -/
structure MonitorArgs where
  deliveryId : String
  origin : String
  destination : String
  recipientEmail : String
  thresholdMinutes : Int
  notifyDeltaMinutes : Int
deriving DecidableEq, Repr

/-- Mutable workflow-local state: the five `let` variables of
`monitorDeliveryWorkflow`. -/
structure MonitorState where
  highestNotifiedDelayMinutes : Int
  notificationSequence : Nat
  hasNotifiedOverThreshold : Bool
  snoozeSleepMs : Option Int
  shouldCheckNow : Bool
deriving DecidableEq, Repr

/-- State at workflow start: all fields zeroed, false or unset. -/
def initState : MonitorState :=
  { highestNotifiedDelayMinutes := 0
    notificationSequence := 0
    hasNotifiedOverThreshold := false
    snoozeSleepMs := none
    shouldCheckNow := false }

/-- The three control signals of the workflow. -/
inductive Signal where
  | snooze (minutes : Int)
  | routeRestarted
  | checkNow
deriving DecidableEq, Repr

/-- Signal handlers as set up by `wf.setHandler` (source lines 98-107).
With minutes embedded as `Int`, the `Math.floor` of the source is the
identity. -/
def applySignal (sig : Signal) (s : MonitorState) : MonitorState :=
  match sig with
  | .snooze minutes => { s with snoozeSleepMs := some (max 0 (minutes * 60000)) }
  | .routeRestarted => { s with highestNotifiedDelayMinutes := 0 }
  | .checkNow => { s with shouldCheckNow := true }

/-- Apply a batch of signals in delivery order. -/
def applySignals (s : MonitorState) (sigs : List Signal) : MonitorState :=
  sigs.foldl (fun st sg => applySignal sg st) s

/-- Observable events of one loop iteration, in program order. -/
inductive Event where
  | snoozeSleep (ms : Int)
  | fetch (delayMinutes : Int)
  | escalation (delayMinutes : Int) (seq : Nat) (idempotencyKey : String)
  | allClear (seq : Nat) (idempotencyKey : String)
  | baseSleep
deriving DecidableEq, Repr

/-- Success or failure of each activity call a cycle might make.
`fetch = none` means `fetchTrafficConditions` failed; `some d` means it
returned `delayMinutes = d`.  The two email sends of a cycle (escalation
branch and all-clear branch) have separate outcomes. -/
structure CycleOutcome where
  fetch : Option Int
  genOk : Bool
  sendEscOk : Bool
  sendClearOk : Bool
deriving DecidableEq, Repr

/-- Outcome in which every activity call succeeds and the fetched delay
is `d`. -/
def okOutcome (d : Int) : CycleOutcome :=
  { fetch := some d, genOk := true, sendEscOk := true, sendClearOk := true }

/-- Result of one loop iteration: the state as left by the iteration
(also on a crash: the state at the moment the failing call threw), the
events emitted, and whether an activity failure escaped the iteration. -/
structure CycleResult where
  state : MonitorState
  events : List Event
  crashed : Bool
deriving DecidableEq, Repr

/-- Tail of the loop body after the two notification branches: reset the
one-shot `shouldCheckNow` flag, then the unconditional 30-minute base
sleep (source lines 143-150). -/
def endOfCycle (s : MonitorState) (evs : List Event) : CycleResult :=
  let s1 := if s.shouldCheckNow then { s with shouldCheckNow := false } else s
  { state := s1, events := evs ++ [Event.baseSleep], crashed := false }

/-- The all-clear branch (source lines 131-140): if an over-threshold
notice was sent and the delay is back below threshold, increment the
sequence, build the idempotency key, send, and only after the send
succeeds reset the watermark fields. -/
def clearBranch (args : MonitorArgs) (o : CycleOutcome) (delay : Int)
    (s : MonitorState) (evs : List Event) : CycleResult :=
  if s.hasNotifiedOverThreshold = true ∧ delay < args.thresholdMinutes then
    let seq := s.notificationSequence + 1
    let key := args.deliveryId ++ "-" ++ toString seq
    let s1 := { s with notificationSequence := seq }
    if o.sendClearOk then
      endOfCycle
        { s1 with hasNotifiedOverThreshold := false, highestNotifiedDelayMinutes := 0 }
        (evs ++ [Event.allClear seq key])
    else
      { state := s1, events := evs, crashed := true }
  else
    endOfCycle s evs

/-- State after the snooze step at the top of the loop body (source
lines 111-115): when a snooze is pending and no immediate check was
requested, the pending snooze is consumed (cleared) and slept; otherwise
nothing changes.  Note the pending snooze is NOT cleared when it is
bypassed because of `shouldCheckNow`. -/
def afterSnooze (s : MonitorState) : MonitorState :=
  match s.snoozeSleepMs with
  | some _ => if s.shouldCheckNow then s else { s with snoozeSleepMs := none }
  | none => s

/-- Sleep events of the snooze step. -/
def preEvents (s : MonitorState) : List Event :=
  match s.snoozeSleepMs with
  | some ms => if s.shouldCheckNow then [] else [Event.snoozeSleep ms]
  | none => []

/-- One iteration of the `while (true)` loop of `monitorDeliveryWorkflow`
(source lines 109-151), with the activity outcomes supplied by `o`. -/
def monitorCycle (args : MonitorArgs) (s0 : MonitorState) (o : CycleOutcome) : CycleResult :=
  let s1 := afterSnooze s0
  let evs0 := preEvents s0
  match o.fetch with
  | none => { state := s1, events := evs0, crashed := true }
  | some delay =>
    let evs1 := evs0 ++ [Event.fetch delay]
    if args.thresholdMinutes ≤ delay ∧
        s1.highestNotifiedDelayMinutes + args.notifyDeltaMinutes ≤ delay then
      if o.genOk then
        let seq := s1.notificationSequence + 1
        let key := args.deliveryId ++ "-" ++ toString seq
        let s2 := { s1 with notificationSequence := seq }
        if o.sendEscOk then
          clearBranch args o delay
            { s2 with highestNotifiedDelayMinutes := delay, hasNotifiedOverThreshold := true }
            (evs1 ++ [Event.escalation delay seq key])
        else
          { state := s2, events := evs1, crashed := true }
      else
        { state := s1, events := evs1, crashed := true }
    else
      clearBranch args o delay s1 evs1

/-- Input to one cycle: the signals delivered since the previous cycle
read its flags, then the activity outcomes of the cycle. -/
structure CycleInput where
  signals : List Signal
  outcome : CycleOutcome
deriving DecidableEq, Repr

/-- A finite prefix of the infinite monitor loop: run one cycle per
input, applying the signals of that input first; stop early if an activity
failure escapes a cycle (the workflow function has no try/catch, so the
exception ends the loop).  Returns the final state, the concatenated
event trace and whether the run ended in a crash. -/
def monitorRun (args : MonitorArgs) : MonitorState → List CycleInput → MonitorState × List Event × Bool
  | s, [] => (s, [], false)
  | s, i :: rest =>
    let r := monitorCycle args (applySignals s i.signals) i.outcome
    if r.crashed then (r.state, r.events, true)
    else
      let tailRun := monitorRun args r.state rest
      (tailRun.1, r.events ++ tailRun.2.1, tailRun.2.2)

/-- Value of `hasNotifiedOverThreshold` as recomputed from an event
trace: an escalation sets it, an all-clear resets it, nothing else
touches it. -/
def notifFold (b : Bool) : List Event → Bool
  | [] => b
  | Event.escalation _ _ _ :: rest => notifFold true rest
  | Event.allClear _ _ :: rest => notifFold false rest
  | Event.snoozeSleep _ :: rest => notifFold b rest
  | Event.fetch _ :: rest => notifFold b rest
  | Event.baseSleep :: rest => notifFold b rest

/-- Sequence number and idempotency key of every dispatched notification
in an event trace, in dispatch order. -/
def notifEvents : List Event → List (Nat × String)
  | [] => []
  | Event.escalation _ q k :: rest => (q, k) :: notifEvents rest
  | Event.allClear q k :: rest => (q, k) :: notifEvents rest
  | Event.snoozeSleep _ :: rest => notifEvents rest
  | Event.fetch _ :: rest => notifEvents rest
  | Event.baseSleep :: rest => notifEvents rest

/-- The idempotency key built for sequence number `n` of a delivery. -/
def idemKey (args : MonitorArgs) (n : Nat) : String :=
  args.deliveryId ++ "-" ++ toString n

theorem notifFold_append (b : Bool) (u v : List Event) :
    notifFold b (u ++ v) = notifFold (notifFold b u) v := by
  induction u generalizing b with
  | nil => rfl
  | cons e rest ih => cases e <;> simp [notifFold, ih]

theorem notifEvents_append (u v : List Event) :
    notifEvents (u ++ v) = notifEvents u ++ notifEvents v := by
  induction u with
  | nil => rfl
  | cons e rest ih => cases e <;> simp [notifEvents, ih]

theorem notifFold_preEvents (b : Bool) (s : MonitorState) :
    notifFold b (preEvents s) = b := by
  unfold preEvents
  cases s.snoozeSleepMs
  · rfl
  · by_cases hc : s.shouldCheckNow <;> simp [hc, notifFold]

theorem notifEvents_preEvents (s : MonitorState) :
    notifEvents (preEvents s) = [] := by
  unfold preEvents
  cases s.snoozeSleepMs
  · rfl
  · by_cases hc : s.shouldCheckNow <;> simp [hc, notifEvents]

theorem afterSnooze_fields (s : MonitorState) :
    (afterSnooze s).highestNotifiedDelayMinutes = s.highestNotifiedDelayMinutes ∧
    (afterSnooze s).notificationSequence = s.notificationSequence ∧
    (afterSnooze s).hasNotifiedOverThreshold = s.hasNotifiedOverThreshold ∧
    (afterSnooze s).shouldCheckNow = s.shouldCheckNow := by
  unfold afterSnooze
  cases s.snoozeSleepMs
  · exact ⟨rfl, rfl, rfl, rfl⟩
  · by_cases hc : s.shouldCheckNow <;> simp [hc]

theorem endOfCycle_events (s : MonitorState) (evs : List Event) :
    (endOfCycle s evs).events = evs ++ [Event.baseSleep] := rfl

theorem endOfCycle_crashed (s : MonitorState) (evs : List Event) :
    (endOfCycle s evs).crashed = false := rfl

theorem endOfCycle_state_fields (s : MonitorState) (evs : List Event) :
    (endOfCycle s evs).state.highestNotifiedDelayMinutes = s.highestNotifiedDelayMinutes ∧
    (endOfCycle s evs).state.notificationSequence = s.notificationSequence ∧
    (endOfCycle s evs).state.hasNotifiedOverThreshold = s.hasNotifiedOverThreshold ∧
    (endOfCycle s evs).state.snoozeSleepMs = s.snoozeSleepMs ∧
    (endOfCycle s evs).state.shouldCheckNow = false := by
  unfold endOfCycle
  by_cases hc : s.shouldCheckNow <;> simp [hc]

@[simp] theorem afterSnooze_highest (s : MonitorState) :
    (afterSnooze s).highestNotifiedDelayMinutes = s.highestNotifiedDelayMinutes :=
  (afterSnooze_fields s).1

@[simp] theorem afterSnooze_seq (s : MonitorState) :
    (afterSnooze s).notificationSequence = s.notificationSequence :=
  (afterSnooze_fields s).2.1

@[simp] theorem afterSnooze_notified (s : MonitorState) :
    (afterSnooze s).hasNotifiedOverThreshold = s.hasNotifiedOverThreshold :=
  (afterSnooze_fields s).2.2.1

@[simp] theorem afterSnooze_chk (s : MonitorState) :
    (afterSnooze s).shouldCheckNow = s.shouldCheckNow :=
  (afterSnooze_fields s).2.2.2

@[simp] theorem endOfCycle_state_highest (s : MonitorState) (evs : List Event) :
    (endOfCycle s evs).state.highestNotifiedDelayMinutes = s.highestNotifiedDelayMinutes :=
  (endOfCycle_state_fields s evs).1

@[simp] theorem endOfCycle_state_seq (s : MonitorState) (evs : List Event) :
    (endOfCycle s evs).state.notificationSequence = s.notificationSequence :=
  (endOfCycle_state_fields s evs).2.1

@[simp] theorem endOfCycle_state_notified (s : MonitorState) (evs : List Event) :
    (endOfCycle s evs).state.hasNotifiedOverThreshold = s.hasNotifiedOverThreshold :=
  (endOfCycle_state_fields s evs).2.2.1

@[simp] theorem endOfCycle_state_snooze (s : MonitorState) (evs : List Event) :
    (endOfCycle s evs).state.snoozeSleepMs = s.snoozeSleepMs :=
  (endOfCycle_state_fields s evs).2.2.2.1

@[simp] theorem endOfCycle_state_chk (s : MonitorState) (evs : List Event) :
    (endOfCycle s evs).state.shouldCheckNow = false :=
  (endOfCycle_state_fields s evs).2.2.2.2

@[simp] theorem endOfCycle_events_eq (s : MonitorState) (evs : List Event) :
    (endOfCycle s evs).events = evs ++ [Event.baseSleep] := rfl

@[simp] theorem endOfCycle_crashed_eq (s : MonitorState) (evs : List Event) :
    (endOfCycle s evs).crashed = false := rfl

theorem no_esc_preEvents (s : MonitorState) (d : Int) (q : Nat) (k : String) :
    Event.escalation d q k ∉ preEvents s := by
  unfold preEvents
  cases s.snoozeSleepMs
  · simp
  · by_cases hc : s.shouldCheckNow <;> simp [hc]

theorem no_clear_preEvents (s : MonitorState) (q : Nat) (k : String) :
    Event.allClear q k ∉ preEvents s := by
  unfold preEvents
  cases s.snoozeSleepMs
  · simp
  · by_cases hc : s.shouldCheckNow <;> simp [hc]

theorem applySignal_notified (sg : Signal) (s : MonitorState) :
    (applySignal sg s).hasNotifiedOverThreshold = s.hasNotifiedOverThreshold := by
  cases sg <;> rfl

theorem applySignal_seq (sg : Signal) (s : MonitorState) :
    (applySignal sg s).notificationSequence = s.notificationSequence := by
  cases sg <;> rfl

theorem applySignals_notified (sigs : List Signal) :
    ∀ s : MonitorState, (applySignals s sigs).hasNotifiedOverThreshold = s.hasNotifiedOverThreshold := by
  induction sigs with
  | nil => intro s; rfl
  | cons sg rest ih =>
    intro s
    have : applySignals s (sg :: rest) = applySignals (applySignal sg s) rest := rfl
    rw [this, ih, applySignal_notified]

theorem applySignals_seq (sigs : List Signal) :
    ∀ s : MonitorState, (applySignals s sigs).notificationSequence = s.notificationSequence := by
  induction sigs with
  | nil => intro s; rfl
  | cons sg rest ih =>
    intro s
    have : applySignals s (sg :: rest) = applySignals (applySignal sg s) rest := rfl
    rw [this, ih, applySignal_seq]

theorem clearBranch_notified_fold (args : MonitorArgs) (o : CycleOutcome) (delay : Int)
    (s : MonitorState) (evs : List Event) (b : Bool)
    (h : notifFold b evs = s.hasNotifiedOverThreshold) :
    (clearBranch args o delay s evs).state.hasNotifiedOverThreshold
      = notifFold b (clearBranch args o delay s evs).events := by
  unfold clearBranch
  split
  · split
    · simp [notifFold_append, notifFold]
    · simpa using h.symm
  · simp [notifFold_append, notifFold, h]

theorem cycle_notified_fold (args : MonitorArgs) (s0 : MonitorState) (o : CycleOutcome) :
    (monitorCycle args s0 o).state.hasNotifiedOverThreshold
      = notifFold s0.hasNotifiedOverThreshold (monitorCycle args s0 o).events := by
  unfold monitorCycle
  cases h : o.fetch <;> simp only [h]
  · simp [notifFold_preEvents]
  · split
    · split
      · split
        · apply clearBranch_notified_fold
          simp [notifFold_append, notifFold_preEvents, notifFold]
        · simp [notifFold_append, notifFold_preEvents, notifFold]
      · simp [notifFold_append, notifFold_preEvents, notifFold]
    · apply clearBranch_notified_fold
      simp [notifFold_append, notifFold_preEvents, notifFold]

theorem clearBranch_seqKeys (args : MonitorArgs) (o : CycleOutcome) (delay : Int)
    (s : MonitorState) (evs : List Event) (b m : Nat)
    (he : notifEvents evs = (List.range' (b + 1) m).map (fun n => (n, idemKey args n)))
    (hs : s.notificationSequence = b + m) :
    ∃ m', notifEvents (clearBranch args o delay s evs).events
        = (List.range' (b + 1) m').map (fun n => (n, idemKey args n))
      ∧ ((clearBranch args o delay s evs).crashed = false →
          (clearBranch args o delay s evs).state.notificationSequence = b + m') := by
  unfold clearBranch
  split
  · split
    · refine ⟨m + 1, ?_, ?_⟩
      · have hr : List.range' (b + 1) m ++ [b + 1 + m] = List.range' (b + 1) (m + 1) := by
          have := List.range'_append_1 (b + 1) m 1
          simpa [Nat.add_comm] using this
        have hn : b + m + 1 = b + 1 + m := by omega
        simp only [endOfCycle_events_eq, notifEvents_append, notifEvents, he, hs, hn]
        rw [← hr]
        simp [idemKey]
      · intro _
        simp only [endOfCycle_state_seq]
        omega
    · exact ⟨m, by simpa using he, by simp⟩
  · exact ⟨m, by simp [notifEvents_append, notifEvents, he], by intro _; simp [hs]⟩

theorem cycle_seqKeys (args : MonitorArgs) (s0 : MonitorState) (o : CycleOutcome) :
    ∃ m, notifEvents (monitorCycle args s0 o).events
        = (List.range' (s0.notificationSequence + 1) m).map (fun n => (n, idemKey args n))
      ∧ ((monitorCycle args s0 o).crashed = false →
          (monitorCycle args s0 o).state.notificationSequence = s0.notificationSequence + m) := by
  unfold monitorCycle
  cases h : o.fetch <;> simp only [h]
  · exact ⟨0, by simp [notifEvents_preEvents], by simp⟩
  · split
    · split
      · split
        · apply clearBranch_seqKeys args o _ _ _ s0.notificationSequence 1
          · simp [notifEvents_append, notifEvents_preEvents, notifEvents, idemKey]
          · simp
        · exact ⟨0, by simp [notifEvents_append, notifEvents_preEvents, notifEvents], by simp⟩
      · exact ⟨0, by simp [notifEvents_append, notifEvents_preEvents, notifEvents], by simp⟩
    · apply clearBranch_seqKeys args o _ _ _ s0.notificationSequence 0
      · simp [notifEvents_append, notifEvents_preEvents, notifEvents]
      · simp

theorem cycle_notified_of_signals (args : MonitorArgs) (s : MonitorState)
    (sigs : List Signal) (o : CycleOutcome) :
    (monitorCycle args (applySignals s sigs) o).state.hasNotifiedOverThreshold
      = notifFold s.hasNotifiedOverThreshold (monitorCycle args (applySignals s sigs) o).events := by
  rw [cycle_notified_fold, applySignals_notified]

theorem run_seqKeys (args : MonitorArgs) (inputs : List CycleInput) :
    ∀ s : MonitorState,
    ∃ m, notifEvents (monitorRun args s inputs).2.1
        = (List.range' (s.notificationSequence + 1) m).map (fun n => (n, idemKey args n)) := by
  induction inputs with
  | nil => intro s; exact ⟨0, by simp [monitorRun, notifEvents]⟩
  | cons i rest ih =>
    intro s
    have hsq : (applySignals s i.signals).notificationSequence = s.notificationSequence :=
      applySignals_seq i.signals s
    obtain ⟨m1, he1, hs1⟩ := cycle_seqKeys args (applySignals s i.signals) i.outcome
    rw [hsq] at he1 hs1
    by_cases hc : (monitorCycle args (applySignals s i.signals) i.outcome).crashed = true
    · refine ⟨m1, ?_⟩
      simp [monitorRun, hc, he1]
    · simp only [Bool.not_eq_true] at hc
      obtain ⟨m2, he2⟩ := ih (monitorCycle args (applySignals s i.signals) i.outcome).state
      rw [hs1 hc] at he2
      refine ⟨m1 + m2, ?_⟩
      simp only [monitorRun, hc, if_false, Bool.false_eq_true, notifEvents_append, he1, he2]
      have hr : List.range' (s.notificationSequence + 1) m1
          ++ List.range' (s.notificationSequence + 1 + m1) m2
          = List.range' (s.notificationSequence + 1) (m1 + m2) := by
        have := List.range'_append_1 (s.notificationSequence + 1) m1 m2
        simpa [Nat.add_comm] using this
      have hn : s.notificationSequence + m1 + 1 = s.notificationSequence + 1 + m1 := by omega
      rw [hn, ← List.map_append, hr, Nat.add_comm m1 m2]

/-- Every all-clear event in the trace is emitted at a point where the
recomputed `hasNotifiedOverThreshold` flag is true. -/
def clearsGuarded (b : Bool) (evs : List Event) : Prop :=
  ∀ (u v : List Event) (q : Nat) (k : String),
    evs = u ++ Event.allClear q k :: v → notifFold b u = true

theorem clearsGuarded_of_no_clear (b : Bool) (evs : List Event)
    (h : ∀ (q : Nat) (k : String), Event.allClear q k ∉ evs) : clearsGuarded b evs := by
  intro u v q k he
  exact absurd (by rw [he]; exact List.mem_append_right u (List.mem_cons_self _ _)) (h q k)

theorem clearsGuarded_append (b : Bool) (x y : List Event)
    (hx : clearsGuarded b x) (hy : clearsGuarded (notifFold b x) y) :
    clearsGuarded b (x ++ y) := by
  intro u v q k he
  rcases List.append_eq_append_iff.mp he with ⟨a1, hu, hy2⟩ | ⟨c1, hx2, hd⟩
  · rw [hu, notifFold_append]
    exact hy a1 v q k hy2
  · cases c1 with
    | nil =>
      simp only [List.append_nil] at hx2
      have hb : notifFold (notifFold b x) [] = true := hy [] v q k (by simpa using hd.symm)
      rw [← hx2]
      simpa [notifFold] using hb
    | cons e c2 =>
      have hed : Event.allClear q k = e ∧ v = c2 ++ y := by
        simp only [List.cons_append] at hd
        exact ⟨List.head_eq_of_cons_eq hd, List.tail_eq_of_cons_eq hd⟩
      exact hx u c2 q k (by rw [hx2, ← hed.1])

theorem clearsGuarded_single_clear (b : Bool) (q : Nat) (k : String) (hb : b = true) :
    clearsGuarded b [Event.allClear q k] := by
  intro u v q' k' h
  cases u with
  | nil => simpa [notifFold] using hb
  | cons e u2 =>
    exfalso
    simp only [List.cons_append] at h
    have h2 := List.tail_eq_of_cons_eq h
    exact absurd h2 (by simp)

theorem clearsGuarded_single_base (b : Bool) : clearsGuarded b [Event.baseSleep] := by
  apply clearsGuarded_of_no_clear
  intro q k
  simp

theorem clearsGuarded_clearBranch (args : MonitorArgs) (o : CycleOutcome) (delay : Int)
    (s : MonitorState) (evs : List Event) (b : Bool)
    (hf : notifFold b evs = s.hasNotifiedOverThreshold)
    (hg : clearsGuarded b evs) :
    clearsGuarded b (clearBranch args o delay s evs).events := by
  unfold clearBranch
  split
  · next hcond =>
    split
    · rw [endOfCycle_events_eq]
      rw [List.append_assoc]
      apply clearsGuarded_append b evs _ hg
      apply clearsGuarded_append
      · exact clearsGuarded_single_clear _ _ _ (by rw [hf]; exact hcond.1)
      · exact clearsGuarded_single_base _
    · exact hg
  · rw [endOfCycle_events_eq]
    apply clearsGuarded_append b evs _ hg
    exact clearsGuarded_single_base _

theorem clearsGuarded_cycle (args : MonitorArgs) (s0 : MonitorState) (o : CycleOutcome) :
    clearsGuarded s0.hasNotifiedOverThreshold (monitorCycle args s0 o).events := by
  unfold monitorCycle
  cases h : o.fetch <;> simp only [h]
  · exact clearsGuarded_of_no_clear _ _ (fun q k => no_clear_preEvents s0 q k)
  · split
    · split
      · split
        · apply clearsGuarded_clearBranch
          · simp [notifFold_append, notifFold_preEvents, notifFold]
          · apply clearsGuarded_of_no_clear
            intro q k
            simp [no_clear_preEvents]
        · apply clearsGuarded_of_no_clear
          intro q k
          simp [no_clear_preEvents]
      · apply clearsGuarded_of_no_clear
        intro q k
        simp [no_clear_preEvents]
    · apply clearsGuarded_clearBranch
      · simp [notifFold_append, notifFold_preEvents, notifFold]
      · apply clearsGuarded_of_no_clear
        intro q k
        simp [no_clear_preEvents]

theorem clearsGuarded_run (args : MonitorArgs) (inputs : List CycleInput) :
    ∀ s : MonitorState,
      clearsGuarded s.hasNotifiedOverThreshold (monitorRun args s inputs).2.1 := by
  induction inputs with
  | nil =>
    intro s
    apply clearsGuarded_of_no_clear
    intro q k
    simp [monitorRun]
  | cons i rest ih =>
    intro s
    by_cases hc : (monitorCycle args (applySignals s i.signals) i.outcome).crashed = true
    · have hcy := clearsGuarded_cycle args (applySignals s i.signals) i.outcome
      rw [applySignals_notified] at hcy
      simpa [monitorRun, hc] using hcy
    · simp only [Bool.not_eq_true] at hc
      have hcy := clearsGuarded_cycle args (applySignals s i.signals) i.outcome
      rw [applySignals_notified] at hcy
      have htail := ih (monitorCycle args (applySignals s i.signals) i.outcome).state
      rw [cycle_notified_of_signals] at htail
      simp only [monitorRun, hc, if_false, Bool.false_eq_true]
      exact clearsGuarded_append _ _ _ hcy htail

theorem exists_escalation_of_fold (t : List Event) :
    notifFold false t = true → ∃ d q k, Event.escalation d q k ∈ t := by
  induction t with
  | nil => intro h; simp [notifFold] at h
  | cons e rest ih =>
    cases e <;> intro h
    case escalation d q k => exact ⟨d, q, k, List.mem_cons_self _ _⟩
    all_goals
      obtain ⟨d, q, k, hm⟩ := ih (by simpa [notifFold] using h)
      exact ⟨d, q, k, List.mem_cons_of_mem _ hm⟩

theorem preEvents_of_checkNow (s : MonitorState) (h : s.shouldCheckNow = true) :
    preEvents s = [] := by
  unfold preEvents
  cases s.snoozeSleepMs
  · rfl
  · simp [h]

/-- Shape of a fully successful cycle in which the escalation condition
holds. -/
theorem cycle_ok_esc (args : MonitorArgs) (s : MonitorState) (delay : Int)
    (hC1 : args.thresholdMinutes ≤ delay)
    (hC2 : s.highestNotifiedDelayMinutes + args.notifyDeltaMinutes ≤ delay) :
    (monitorCycle args s (okOutcome delay)).events
      = preEvents s ++ [Event.fetch delay,
          Event.escalation delay (s.notificationSequence + 1) (idemKey args (s.notificationSequence + 1)),
          Event.baseSleep]
    ∧ (monitorCycle args s (okOutcome delay)).state.highestNotifiedDelayMinutes = delay
    ∧ (monitorCycle args s (okOutcome delay)).state.hasNotifiedOverThreshold = true
    ∧ (monitorCycle args s (okOutcome delay)).state.notificationSequence = s.notificationSequence + 1
    ∧ (monitorCycle args s (okOutcome delay)).state.shouldCheckNow = false
    ∧ (monitorCycle args s (okOutcome delay)).crashed = false := by
  simp only [monitorCycle, okOutcome]
  split
  · simp [clearBranch, idemKey, not_lt.mpr hC1]
  · next hesc =>
    rw [afterSnooze_highest] at hesc
    exact absurd ⟨hC1, hC2⟩ hesc

/-- Shape of a fully successful cycle in which the all-clear condition
holds. -/
theorem cycle_ok_clear (args : MonitorArgs) (s : MonitorState) (delay : Int)
    (hD1 : s.hasNotifiedOverThreshold = true)
    (hD2 : delay < args.thresholdMinutes) :
    (monitorCycle args s (okOutcome delay)).events
      = preEvents s ++ [Event.fetch delay,
          Event.allClear (s.notificationSequence + 1) (idemKey args (s.notificationSequence + 1)),
          Event.baseSleep]
    ∧ (monitorCycle args s (okOutcome delay)).state.highestNotifiedDelayMinutes = 0
    ∧ (monitorCycle args s (okOutcome delay)).state.hasNotifiedOverThreshold = false
    ∧ (monitorCycle args s (okOutcome delay)).state.notificationSequence = s.notificationSequence + 1
    ∧ (monitorCycle args s (okOutcome delay)).state.shouldCheckNow = false
    ∧ (monitorCycle args s (okOutcome delay)).crashed = false := by
  simp only [monitorCycle, okOutcome]
  split
  · next hesc => exact absurd hesc.1 (not_le.mpr hD2)
  · simp [clearBranch, idemKey, hD1, hD2]

/-- Shape of a fully successful cycle in which neither notification
condition holds. -/
theorem cycle_ok_none (args : MonitorArgs) (s : MonitorState) (delay : Int)
    (hN : ¬(args.thresholdMinutes ≤ delay ∧
        s.highestNotifiedDelayMinutes + args.notifyDeltaMinutes ≤ delay))
    (hD : ¬(s.hasNotifiedOverThreshold = true ∧ delay < args.thresholdMinutes)) :
    (monitorCycle args s (okOutcome delay)).events
      = preEvents s ++ [Event.fetch delay, Event.baseSleep]
    ∧ (monitorCycle args s (okOutcome delay)).state.highestNotifiedDelayMinutes
        = s.highestNotifiedDelayMinutes
    ∧ (monitorCycle args s (okOutcome delay)).state.hasNotifiedOverThreshold
        = s.hasNotifiedOverThreshold
    ∧ (monitorCycle args s (okOutcome delay)).state.notificationSequence
        = s.notificationSequence
    ∧ (monitorCycle args s (okOutcome delay)).state.shouldCheckNow = false
    ∧ (monitorCycle args s (okOutcome delay)).crashed = false := by
  simp only [monitorCycle, okOutcome]
  split
  · next hesc =>
    rw [afterSnooze_highest] at hesc
    exact absurd hesc hN
  · simp [clearBranch, hD]

/-- Concrete arguments used by witnesses: the configuration of the
Scenario A of the spec (threshold 30, delta 10). -/
def argsA : MonitorArgs :=
  { deliveryId := "D1", origin := "A", destination := "B", recipientEmail := "c@x",
    thresholdMinutes := 30, notifyDeltaMinutes := 10 }

/-- C1: in a fully successful cycle, an escalation notification is
dispatched iff the fetched delay is at or above the threshold and at or
above the watermark plus the notify delta; when it is dispatched the
cycle sets the watermark to the delay and the over-threshold flag to
true. -/
theorem spec_c1 (args : MonitorArgs) (s : MonitorState) (delay : Int) :
    ((∃ q k, Event.escalation delay q k ∈ (monitorCycle args s (okOutcome delay)).events)
      ↔ (args.thresholdMinutes ≤ delay ∧
          s.highestNotifiedDelayMinutes + args.notifyDeltaMinutes ≤ delay))
    ∧ (args.thresholdMinutes ≤ delay →
        s.highestNotifiedDelayMinutes + args.notifyDeltaMinutes ≤ delay →
        (monitorCycle args s (okOutcome delay)).state.highestNotifiedDelayMinutes = delay
        ∧ (monitorCycle args s (okOutcome delay)).state.hasNotifiedOverThreshold = true) := by
  constructor
  · constructor
    · rintro ⟨q, k, hm⟩
      by_cases hC : args.thresholdMinutes ≤ delay ∧
          s.highestNotifiedDelayMinutes + args.notifyDeltaMinutes ≤ delay
      · exact hC
      · exfalso
        by_cases hD : s.hasNotifiedOverThreshold = true ∧ delay < args.thresholdMinutes
        · rw [(cycle_ok_clear args s delay hD.1 hD.2).1] at hm
          simp at hm
          exact no_esc_preEvents s delay q k hm
        · rw [(cycle_ok_none args s delay hC hD).1] at hm
          simp at hm
          exact no_esc_preEvents s delay q k hm
    · rintro ⟨hC1, hC2⟩
      refine ⟨s.notificationSequence + 1, idemKey args (s.notificationSequence + 1), ?_⟩
      rw [(cycle_ok_esc args s delay hC1 hC2).1]
      simp
  · intro hC1 hC2
    obtain ⟨-, h2, h3, -, -, -⟩ := cycle_ok_esc args s delay hC1 hC2
    exact ⟨h2, h3⟩

theorem spec_c1_witness :
    (∃ q k, Event.escalation 35 q k ∈ (monitorCycle argsA initState (okOutcome 35)).events)
    ∧ (monitorCycle argsA initState (okOutcome 35)).state.highestNotifiedDelayMinutes = 35
    ∧ (monitorCycle argsA initState (okOutcome 35)).state.hasNotifiedOverThreshold = true :=
  ⟨(spec_c1 argsA initState 35).1.mpr ⟨by decide, by decide⟩,
   (spec_c1 argsA initState 35).2 (by decide) (by decide)⟩

/-- C5: a cycle in which some activity call failed leaves both watermark
fields (the highest notified delay and the over-threshold flag) exactly
as they were at the start of the cycle; moreover any cycle that changes
a watermark field dispatched a notification in that cycle. -/
theorem spec_c5 (args : MonitorArgs) (s : MonitorState) (o : CycleOutcome)
    (h : (monitorCycle args s o).crashed = true) :
    (monitorCycle args s o).state.highestNotifiedDelayMinutes = s.highestNotifiedDelayMinutes
    ∧ (monitorCycle args s o).state.hasNotifiedOverThreshold = s.hasNotifiedOverThreshold := by
  revert h
  unfold monitorCycle
  cases hf : o.fetch <;> simp only [hf]
  · intro _
    simp
  · split
    · next hesc =>
      split
      · split
        · unfold clearBranch
          split
          · next hcl => exact fun _ => False.elim (absurd hcl.2 (not_lt.mpr hesc.1))
          · simp
        · intro _
          simp
      · intro _
        simp
    · unfold clearBranch
      split
      · split
        · simp
        · intro _
          simp
      · simp

/-- Outcome in which the traffic fetch itself fails. -/
def failFetchOutcome : CycleOutcome :=
  { fetch := none, genOk := true, sendEscOk := true, sendClearOk := true }

/-- Outcome in which the fetch returns `d`, the message is generated,
but the escalation email send fails. -/
def failEscSendOutcome (d : Int) : CycleOutcome :=
  { fetch := some d, genOk := true, sendEscOk := false, sendClearOk := true }

theorem spec_c5_witness :
    (monitorCycle argsA initState (failEscSendOutcome 35)).crashed = true
    ∧ (monitorCycle argsA initState (failEscSendOutcome 35)).state.highestNotifiedDelayMinutes
        = initState.highestNotifiedDelayMinutes
    ∧ (monitorCycle argsA initState (failEscSendOutcome 35)).state.hasNotifiedOverThreshold
        = initState.hasNotifiedOverThreshold :=
  ⟨by decide, spec_c5 argsA initState (failEscSendOutcome 35) (by decide)⟩

/-- C2: in a fully successful cycle, an all-clear notification is
dispatched iff the over-threshold flag is set and the fetched delay is
back below the threshold, and dispatching it resets the watermark to 0
and the flag to false; moreover, in any run from the initial state, a
second all-clear can only occur after an intervening escalation. -/
theorem spec_c2 :
    (∀ (args : MonitorArgs) (s : MonitorState) (delay : Int),
      ((∃ q k, Event.allClear q k ∈ (monitorCycle args s (okOutcome delay)).events)
        ↔ (s.hasNotifiedOverThreshold = true ∧ delay < args.thresholdMinutes))
      ∧ (s.hasNotifiedOverThreshold = true → delay < args.thresholdMinutes →
          (monitorCycle args s (okOutcome delay)).state.highestNotifiedDelayMinutes = 0
          ∧ (monitorCycle args s (okOutcome delay)).state.hasNotifiedOverThreshold = false))
    ∧ (∀ (args : MonitorArgs) (inputs : List CycleInput) (t1 t2 t3 : List Event)
        (q q' : Nat) (k k' : String),
        (monitorRun args initState inputs).2.1
          = t1 ++ Event.allClear q k :: (t2 ++ Event.allClear q' k' :: t3) →
        ∃ d sq ky, Event.escalation d sq ky ∈ t2) := by
  constructor
  · intro args s delay
    constructor
    · constructor
      · rintro ⟨q, k, hm⟩
        by_cases hD : s.hasNotifiedOverThreshold = true ∧ delay < args.thresholdMinutes
        · exact hD
        · exfalso
          by_cases hC : args.thresholdMinutes ≤ delay ∧
              s.highestNotifiedDelayMinutes + args.notifyDeltaMinutes ≤ delay
          · rw [(cycle_ok_esc args s delay hC.1 hC.2).1] at hm
            simp at hm
            exact no_clear_preEvents s q k hm
          · rw [(cycle_ok_none args s delay hC hD).1] at hm
            simp at hm
            exact no_clear_preEvents s q k hm
      · rintro ⟨hD1, hD2⟩
        refine ⟨s.notificationSequence + 1, idemKey args (s.notificationSequence + 1), ?_⟩
        rw [(cycle_ok_clear args s delay hD1 hD2).1]
        simp
    · intro hD1 hD2
      obtain ⟨-, h2, h3, -, -, -⟩ := cycle_ok_clear args s delay hD1 hD2
      exact ⟨h2, h3⟩
  · intro args inputs t1 t2 t3 q q' k k' htr
    have hg := clearsGuarded_run args inputs initState
    have h2 := hg (t1 ++ Event.allClear q k :: t2) t3 q' k'
      (by rw [htr]; simp)
    rw [show t1 ++ Event.allClear q k :: t2 = (t1 ++ [Event.allClear q k]) ++ t2 by simp] at h2
    rw [notifFold_append, notifFold_append] at h2
    simp only [notifFold] at h2
    exact exists_escalation_of_fold t2 h2

/-- State reached after a single successful escalation at delay 35 under
`argsA`. -/
def stateEsc35 : MonitorState :=
  { highestNotifiedDelayMinutes := 35, notificationSequence := 1,
    hasNotifiedOverThreshold := true, snoozeSleepMs := none, shouldCheckNow := false }

/-- Four successful cycles whose delays rise over threshold, clear, rise
again and clear again. -/
def inputsTwoEpisodes : List CycleInput :=
  [ { signals := [], outcome := okOutcome 35 },
    { signals := [], outcome := okOutcome 20 },
    { signals := [], outcome := okOutcome 35 },
    { signals := [], outcome := okOutcome 20 } ]

theorem spec_c2_witness :
    (∃ q k, Event.allClear q k ∈ (monitorCycle argsA stateEsc35 (okOutcome 20)).events)
    ∧ (∃ d sq ky, Event.escalation d sq ky ∈
        ([Event.baseSleep, Event.fetch 35, Event.escalation 35 3 "D1-3",
          Event.baseSleep, Event.fetch 20] : List Event)) :=
  ⟨(spec_c2.1 argsA stateEsc35 20).1.mpr ⟨rfl, by decide⟩,
   spec_c2.2 argsA inputsTwoEpisodes
     [Event.fetch 35, Event.escalation 35 1 "D1-1", Event.baseSleep, Event.fetch 20]
     [Event.baseSleep, Event.fetch 35, Event.escalation 35 3 "D1-3",
      Event.baseSleep, Event.fetch 20]
     [Event.baseSleep] 2 4 "D1-2" "D1-4" (by decide)⟩

/-- C3 counterexample: a cycle that starts with `checkNowRequested` set
(here after `snooze(5)` followed by `checkNow()`) still performs the
base 30-minute wait: the claim that the next cycle skips the base wait
is false.  The full event list shows the snooze sleep is skipped but
`baseSleep` is emitted. -/
theorem spec_c3_counterexample :
    (monitorCycle argsA (applySignals initState [Signal.snooze 5, Signal.checkNow])
        (okOutcome 35)).events
      = [Event.fetch 35, Event.escalation 35 1 "D1-1", Event.baseSleep]
    ∧ Event.baseSleep ∈ (monitorCycle argsA
        (applySignals initState [Signal.snooze 5, Signal.checkNow]) (okOutcome 35)).events := by
  decide

/-- C3 amended: when `checkNowRequested` is set, the next successful
cycle performs no waiting before the fetch (its first event is the
fetch, and it emits no snooze sleep at all), but the base 30-minute wait
is not skipped: it is still performed at the end of that cycle, and the
one-shot flag is cleared. -/
theorem spec_c3 (args : MonitorArgs) (s : MonitorState) (delay : Int)
    (h : s.shouldCheckNow = true) :
    (∃ rest, (monitorCycle args s (okOutcome delay)).events = Event.fetch delay :: rest)
    ∧ (∀ ms, Event.snoozeSleep ms ∉ (monitorCycle args s (okOutcome delay)).events)
    ∧ Event.baseSleep ∈ (monitorCycle args s (okOutcome delay)).events
    ∧ (monitorCycle args s (okOutcome delay)).state.shouldCheckNow = false := by
  have hpre := preEvents_of_checkNow s h
  by_cases hC : args.thresholdMinutes ≤ delay ∧
      s.highestNotifiedDelayMinutes + args.notifyDeltaMinutes ≤ delay
  · obtain ⟨he, -, -, -, hchk, -⟩ := cycle_ok_esc args s delay hC.1 hC.2
    rw [hpre] at he
    refine ⟨⟨_, by rw [he]; rfl⟩, ?_, ?_, hchk⟩
    · intro ms
      rw [he]
      simp
    · rw [he]
      simp
  · by_cases hD : s.hasNotifiedOverThreshold = true ∧ delay < args.thresholdMinutes
    · obtain ⟨he, -, -, -, hchk, -⟩ := cycle_ok_clear args s delay hD.1 hD.2
      rw [hpre] at he
      refine ⟨⟨_, by rw [he]; rfl⟩, ?_, ?_, hchk⟩
      · intro ms
        rw [he]
        simp
      · rw [he]
        simp
    · obtain ⟨he, -, -, -, hchk, -⟩ := cycle_ok_none args s delay hC hD
      rw [hpre] at he
      refine ⟨⟨_, by rw [he]; rfl⟩, ?_, ?_, hchk⟩
      · intro ms
        rw [he]
        simp
      · rw [he]
        simp

theorem spec_c3_witness :
    Event.baseSleep ∈ (monitorCycle argsA
        (applySignals initState [Signal.snooze 5, Signal.checkNow]) (okOutcome 35)).events
    ∧ (monitorCycle argsA (applySignals initState [Signal.snooze 5, Signal.checkNow])
        (okOutcome 35)).state.shouldCheckNow = false :=
  (spec_c3 argsA (applySignals initState [Signal.snooze 5, Signal.checkNow]) 35 (by decide)).2.2

/-- C4 counterexample: with a failing traffic fetch in the first cycle,
the run terminates in failure (`crashed = true`) with an empty trace:
the second cycle, which would have fetched and escalated at delay 35, is
never executed — the loop does not survive the collaborator failure and
does not retry on the next wake. -/
theorem spec_c4_counterexample :
    monitorRun argsA initState
        [{ signals := [], outcome := failFetchOutcome },
         { signals := [], outcome := okOutcome 35 }]
      = (initState, [], true) := by
  decide

/-- C4 amended: a cycle in which an activity call fails aborts the whole
loop, not just the cycle: the failure propagates (there is no try/catch
in the workflow body), the run ends with the state and events of the
crashed cycle, and the remaining inputs are never processed.  Recovery is left
to the host, not to code in the loop. -/
theorem spec_c4 (args : MonitorArgs) (s : MonitorState) (i : CycleInput)
    (rest : List CycleInput)
    (h : (monitorCycle args (applySignals s i.signals) i.outcome).crashed = true) :
    monitorRun args s (i :: rest)
      = ((monitorCycle args (applySignals s i.signals) i.outcome).state,
         (monitorCycle args (applySignals s i.signals) i.outcome).events, true) := by
  simp [monitorRun, h]

theorem spec_c4_witness :
    monitorRun argsA initState
        [{ signals := [], outcome := failFetchOutcome },
         { signals := [], outcome := okOutcome 20 }]
      = ((monitorCycle argsA (applySignals initState []) failFetchOutcome).state,
         (monitorCycle argsA (applySignals initState []) failFetchOutcome).events, true) :=
  spec_c4 argsA initState { signals := [], outcome := failFetchOutcome }
    [{ signals := [], outcome := okOutcome 20 }] (by decide)

/-- Configuration whose notify delta exceeds its threshold. -/
def argsB : MonitorArgs :=
  { deliveryId := "d", origin := "A", destination := "B", recipientEmail := "c@x",
    thresholdMinutes := 30, notifyDeltaMinutes := 50 }

/-- C6 counterexample: with threshold 30 and notify delta 50, after an
escalation at delay 100 and a `routeRestarted` signal, the next cycle
fetches delay 40 — which is at or above the threshold — yet dispatches
no escalation (the trace of the two cycles contains no notification for
delay 40), because 40 is below the notify delta gate `0 + 50`.  So a
subsequent cycle cannot re-escalate at ANY delay at or above the
threshold. -/
theorem spec_c6_counterexample :
    (monitorRun argsB initState
        [{ signals := [], outcome := okOutcome 100 },
         { signals := [Signal.routeRestarted], outcome := okOutcome 40 }]).2.1
      = [Event.fetch 100, Event.escalation 100 1 "d-1", Event.baseSleep,
         Event.fetch 40, Event.baseSleep]
    ∧ argsB.thresholdMinutes ≤ (40 : Int) := by
  decide

/-- C6 amended: the `routeRestarted` handler resets the watermark to 0
and leaves every other state field untouched; after it is applied, a
successful cycle re-escalates at any delay that is at or above BOTH the
threshold and the notify delta (delay at or above the threshold alone
suffices only when the delta does not exceed the threshold). -/
theorem spec_c6 (args : MonitorArgs) (s : MonitorState) (delay : Int)
    (h1 : args.thresholdMinutes ≤ delay) (h2 : args.notifyDeltaMinutes ≤ delay) :
    applySignal Signal.routeRestarted s = { s with highestNotifiedDelayMinutes := 0 }
    ∧ (∃ q k, Event.escalation delay q k ∈
        (monitorCycle args (applySignal Signal.routeRestarted s) (okOutcome delay)).events) := by
  refine ⟨rfl, ?_⟩
  have hz : (applySignal Signal.routeRestarted s).highestNotifiedDelayMinutes = 0 := rfl
  have hesc := cycle_ok_esc args (applySignal Signal.routeRestarted s) delay h1
    (by rw [hz]; simpa using h2)
  refine ⟨(applySignal Signal.routeRestarted s).notificationSequence + 1,
    idemKey args ((applySignal Signal.routeRestarted s).notificationSequence + 1), ?_⟩
  rw [hesc.1]
  simp

theorem spec_c6_witness :
    applySignal Signal.routeRestarted stateEsc35
        = { stateEsc35 with highestNotifiedDelayMinutes := 0 }
    ∧ (∃ q k, Event.escalation 100 q k ∈
        (monitorCycle argsB (applySignal Signal.routeRestarted stateEsc35)
          (okOutcome 100)).events) :=
  spec_c6 argsB stateEsc35 100 (by decide) (by decide)

/-- Watermark values of reachable states are 0 or bounded below by both
configuration gates. -/
def WatermarkInv (args : MonitorArgs) (s : MonitorState) : Prop :=
  0 ≤ s.highestNotifiedDelayMinutes ∧
  (s.highestNotifiedDelayMinutes = 0 ∨
    (args.thresholdMinutes ≤ s.highestNotifiedDelayMinutes ∧
     args.notifyDeltaMinutes ≤ s.highestNotifiedDelayMinutes))

theorem watermarkInv_init (args : MonitorArgs) : WatermarkInv args initState :=
  ⟨le_refl 0, Or.inl rfl⟩

theorem watermarkInv_signal (args : MonitorArgs) (sg : Signal) (s : MonitorState)
    (h : WatermarkInv args s) : WatermarkInv args (applySignal sg s) := by
  cases sg
  · exact h
  · exact ⟨le_refl 0, Or.inl rfl⟩
  · exact h

theorem watermarkInv_signals (args : MonitorArgs) (sigs : List Signal) :
    ∀ s : MonitorState, WatermarkInv args s → WatermarkInv args (applySignals s sigs) := by
  induction sigs with
  | nil => intro s h; exact h
  | cons sg rest ih =>
    intro s h
    exact ih (applySignal sg s) (watermarkInv_signal args sg s h)

theorem watermarkInv_afterSnooze (args : MonitorArgs) (s : MonitorState)
    (h : WatermarkInv args s) : WatermarkInv args (afterSnooze s) := by
  unfold WatermarkInv at h ⊢
  rw [afterSnooze_highest]
  exact h

theorem watermarkInv_cycle (args : MonitorArgs) (s : MonitorState) (o : CycleOutcome)
    (hd : 0 ≤ args.notifyDeltaMinutes)
    (h : WatermarkInv args s) : WatermarkInv args (monitorCycle args s o).state := by
  unfold monitorCycle
  cases hf : o.fetch <;> simp only [hf]
  · exact watermarkInv_afterSnooze args s h
  · next delay =>
    split
    · next hesc =>
      split
      · split
        · unfold clearBranch
          split
          · next hcl => exact False.elim (absurd hcl.2 (not_lt.mpr hesc.1))
          · have h0 : (0 : Int) ≤ s.highestNotifiedDelayMinutes := h.1
            rw [afterSnooze_highest] at hesc
            constructor
            · simp only [endOfCycle_state_highest]
              show (0 : Int) ≤ delay
              omega
            · right
              simp only [endOfCycle_state_highest]
              show args.thresholdMinutes ≤ delay ∧ args.notifyDeltaMinutes ≤ delay
              exact ⟨hesc.1, by omega⟩
        · constructor
          · simpa using h.1
          · simpa using h.2
      · exact watermarkInv_afterSnooze args s h
    · unfold clearBranch
      split
      · split
        · exact ⟨by simp, Or.inl (by simp)⟩
        · constructor
          · simpa using h.1
          · simpa using h.2
      · have := watermarkInv_afterSnooze args s h
        constructor
        · simpa using this.1
        · simpa using this.2

theorem watermarkInv_run (args : MonitorArgs) (inputs : List CycleInput)
    (hd : 0 ≤ args.notifyDeltaMinutes) :
    ∀ s : MonitorState, WatermarkInv args s → WatermarkInv args (monitorRun args s inputs).1 := by
  induction inputs with
  | nil => intro s h; exact h
  | cons i rest ih =>
    intro s h
    have h1 := watermarkInv_signals args i.signals s h
    have h2 := watermarkInv_cycle args (applySignals s i.signals) i.outcome hd h1
    by_cases hc : (monitorCycle args (applySignals s i.signals) i.outcome).crashed = true
    · simpa [monitorRun, hc] using h2
    · simp only [Bool.not_eq_true] at hc
      simp only [monitorRun, hc, if_false, Bool.false_eq_true]
      exact ih _ h2

/-- A state is reachable when some finite run from the initial state
ends in it. -/
def Reachable (args : MonitorArgs) (s : MonitorState) : Prop :=
  ∃ inputs, (monitorRun args initState inputs).1 = s

/-- C7: in any reachable state whose watermark is w > 0 (such a
watermark was necessarily set by a prior escalation), applying
`routeRestarted` and then running a successful cycle that fetches
delay w dispatches an escalation: the watermark was truly reset to 0,
so the old watermark value re-triggers. -/
theorem spec_c7 (args : MonitorArgs) (s : MonitorState) (w : Int)
    (hd : 0 ≤ args.notifyDeltaMinutes)
    (hr : Reachable args s)
    (hw : s.highestNotifiedDelayMinutes = w)
    (hpos : 0 < w) :
    ∃ q k, Event.escalation w q k ∈
      (monitorCycle args (applySignal Signal.routeRestarted s) (okOutcome w)).events := by
  obtain ⟨inputs, hrun⟩ := hr
  have hinv : WatermarkInv args s := by
    rw [← hrun]
    exact watermarkInv_run args inputs hd initState (watermarkInv_init args)
  rcases hinv.2 with h0 | ⟨hth, hdel⟩
  · rw [hw] at h0
    omega
  · rw [hw] at hth hdel
    have hz : (applySignal Signal.routeRestarted s).highestNotifiedDelayMinutes = 0 := rfl
    have hesc := cycle_ok_esc args (applySignal Signal.routeRestarted s) w hth
      (by rw [hz]; simpa using hdel)
    refine ⟨(applySignal Signal.routeRestarted s).notificationSequence + 1,
      idemKey args ((applySignal Signal.routeRestarted s).notificationSequence + 1), ?_⟩
    rw [hesc.1]
    simp

theorem spec_c7_witness :
    ∃ q k, Event.escalation 35 q k ∈
      (monitorCycle argsA (applySignal Signal.routeRestarted stateEsc35)
        (okOutcome 35)).events :=
  spec_c7 argsA stateEsc35 35 (by decide)
    ⟨[{ signals := [], outcome := okOutcome 35 }], by decide⟩ (by decide) (by decide)

/-- C8: in any run of the loop from the initial state, the dispatched
notifications carry exactly the sequence numbers 1, 2, ..., m in order,
each with idempotency key `deliveryId-n`; consequently the sequence
numbers of the issued keys are strictly increasing and pairwise
distinct. -/
theorem spec_c8 (args : MonitorArgs) (inputs : List CycleInput) :
    (∃ m, notifEvents (monitorRun args initState inputs).2.1
        = (List.range' 1 m).map (fun n => (n, idemKey args n)))
    ∧ ((notifEvents (monitorRun args initState inputs).2.1).map Prod.fst).Pairwise (· < ·)
    ∧ ((notifEvents (monitorRun args initState inputs).2.1).map Prod.fst).Nodup := by
  obtain ⟨m, hm⟩ := run_seqKeys args inputs initState
  have hm1 : notifEvents (monitorRun args initState inputs).2.1
      = (List.range' 1 m).map (fun n => (n, idemKey args n)) := by
    simpa using hm
  have hfst : (notifEvents (monitorRun args initState inputs).2.1).map Prod.fst
      = List.range' 1 m := by
    rw [hm1, List.map_map]
    have hid : (Prod.fst ∘ fun n => (n, idemKey args n)) = id := rfl
    rw [hid, List.map_id]
  refine ⟨⟨m, hm1⟩, ?_, ?_⟩
  · rw [hfst]
    exact List.pairwise_lt_range' 1 m 1 (by omega)
  · rw [hfst]
    exact List.nodup_range' 1 m

/-- Scenario A inputs: four fully successful cycles with delays
35, 38, 50, 20 and no signals. -/
def inputsScenarioA : List CycleInput :=
  [ { signals := [], outcome := okOutcome 35 },
    { signals := [], outcome := okOutcome 38 },
    { signals := [], outcome := okOutcome 50 },
    { signals := [], outcome := okOutcome 20 } ]

/-- C9: with threshold 30 and delta 10, the delay sequence
[35, 38, 50, 20] produces exactly three notifications: an escalation at
delay 35 with key sequence 1, an escalation at delay 50 with key
sequence 2 (the 38 cycle dispatches nothing), and an all-clear at delay
20 with key sequence 3. -/
theorem spec_c9 :
    (monitorRun argsA initState inputsScenarioA).2.1
      = [Event.fetch 35, Event.escalation 35 1 "D1-1", Event.baseSleep,
         Event.fetch 38, Event.baseSleep,
         Event.fetch 50, Event.escalation 50 2 "D1-2", Event.baseSleep,
         Event.fetch 20, Event.allClear 3 "D1-3", Event.baseSleep]
    ∧ notifEvents (monitorRun argsA initState inputsScenarioA).2.1
      = [(1, "D1-1"), (2, "D1-2"), (3, "D1-3")] := by
  decide

/-- Static template message of `generateDelayMessage`
(`src/worker/src/activities/index.ts`, the `fallback` closure). -/
def fallbackMessage (origin destination : String) (delayMinutes : Int) : String :=
  "Heads up! Your delivery from " ++ origin ++ " to " ++ destination ++
    " is delayed by about " ++ toString delayMinutes ++
    " minutes due to traffic. We\x27ll keep you posted."

/-- The `generateDelayMessage` activity
(`src/worker/src/activities/index.ts` lines 129-177).  `useMock` and
`apiKey` model the environment; `completion` models the outcome of the
OpenAI call: `Except.error ()` for a thrown fetch error or a non-ok
HTTP status, `Except.ok content` for a parsed response whose extracted
message content is `content` (missing content is `none`).  The source
trims the content and falls back when the result is empty; every error
path is caught and also falls back. -/
def generateDelayMessage (useMock : Bool) (apiKey : Option String)
    (completion : Except Unit (Option String))
    (origin destination : String) (delayMinutes : Int) : String :=
  let fallback := fallbackMessage origin destination delayMinutes
  if useMock || apiKey.isNone then fallback
  else
    match completion with
    | .error _ => fallback
    | .ok content =>
      let text := (content.getD ("")).trim
      if text = "" then fallback else text

theorem fallbackMessage_ne_empty (origin destination : String) (delayMinutes : Int) :
    fallbackMessage origin destination delayMinutes ≠ "" := by
  intro h
  have hl := congrArg String.length h
  simp only [fallbackMessage, String.length_append] at hl
  have hzero : ("" : String).length = 0 := by decide
  have hb : 0 < (" to " : String).length := by decide
  omega

/-- C10: `generateDelayMessage` never fails: for every input and every
provider outcome it returns a non-empty string, and it returns the
static template whenever the provider is mocked out, the API key is
missing, the call errors, or the completion is empty after trimming. -/
theorem spec_c10 (useMock : Bool) (apiKey : Option String)
    (completion : Except Unit (Option String))
    (origin destination : String) (delayMinutes : Int) :
    generateDelayMessage useMock apiKey completion origin destination delayMinutes ≠ ""
    ∧ (useMock = true →
        generateDelayMessage useMock apiKey completion origin destination delayMinutes
          = fallbackMessage origin destination delayMinutes)
    ∧ (apiKey = none →
        generateDelayMessage useMock apiKey completion origin destination delayMinutes
          = fallbackMessage origin destination delayMinutes)
    ∧ (∀ e, completion = Except.error e →
        generateDelayMessage useMock apiKey completion origin destination delayMinutes
          = fallbackMessage origin destination delayMinutes)
    ∧ (∀ content, completion = Except.ok content → (content.getD ("")).trim = "" →
        generateDelayMessage useMock apiKey completion origin destination delayMinutes
          = fallbackMessage origin destination delayMinutes) := by
  refine ⟨?_, ?_, ?_, ?_, ?_⟩
  · unfold generateDelayMessage
    split
    · exact fallbackMessage_ne_empty origin destination delayMinutes
    · match completion with
      | .error e => exact fallbackMessage_ne_empty origin destination delayMinutes
      | .ok content =>
        by_cases ht : (content.getD ("")).trim = ""
        · simp only [ht, if_pos]
          exact fallbackMessage_ne_empty origin destination delayMinutes
        · simp only [if_neg ht]
          exact ht
  · intro hm
    unfold generateDelayMessage
    simp [hm]
  · intro hk
    unfold generateDelayMessage
    simp [hk]
  · intro e he
    unfold generateDelayMessage
    subst he
    split
    · rfl
    · rfl
  · intro content hc ht
    unfold generateDelayMessage
    subst hc
    split
    · rfl
    · simp [ht]

theorem spec_c10_witness :
    generateDelayMessage false none (Except.error ()) "A" "B" 12 ≠ ""
    ∧ generateDelayMessage false none (Except.error ()) "A" "B" 12
        = fallbackMessage ("A") ("B") 12 :=
  ⟨(spec_c10 false none (Except.error ()) "A" "B" 12).1,
   (spec_c10 false none (Except.error ()) "A" "B" 12).2.2.1 rfl⟩
